import Mathlib

/-!
Verification of the sprint-tracking core of the rhoai-jira repository.

The definitions below are a shallow embedding of the Go sources:
  * the data model of internal/jira (HistoryItem, HistoryEntry, Changelog,
    Sprint, JiraIssueWithSprints, ToChangelog, ParseSprintString),
  * the sprint-tracker pipeline: changelog resolution, timeline replay
    (window open/close, running estimate/status trackers), interval-bucketed
    aggregation and the sorted report (the process function of the tracker).

Go machine details are modelled as follows: time.Time values are Int
milliseconds counted from the Unix epoch (day boundaries agree with the
boundaries Go computes from its zero time, because the two epochs differ by
a whole number of days); float64 story points are Rat; Go maps are
association lists with first-match lookup and in-place replacement on
insert; a nil slice read from a map is the empty list.
-/

namespace RhoaiJira

/-! ## Small string helpers (strings.Split, strings.TrimSpace) -/

/-- Embedding of strings.Split with a one-character separator: splitting the
empty string yields one empty field, and every separator starts a new field. -/
def splitCharAux (sep : Char) : List Char → List Char → List String
  | [], acc => [String.mk acc.reverse]
  | c :: cs, acc =>
    if c = sep then String.mk acc.reverse :: splitCharAux sep cs []
    else splitCharAux sep cs (c :: acc)

/-- strings.Split(s, sep) for a single-character separator. -/
def splitChar (sep : Char) (s : String) : List String :=
  splitCharAux sep s.data []

/-- strings.Split(s, ",") as used on sprint value lists. -/
def splitComma (s : String) : List String := splitChar ',' s

/-- ASCII whitespace, covering the characters strings.TrimSpace removes in
the inputs this system handles. -/
def isSpaceChar (c : Char) : Bool :=
  c = ' ' ∨ c = '\t' ∨ c = '\n' ∨ c = '\r'

/-- strings.TrimSpace. -/
def trimSpace (s : String) : String :=
  String.mk (((s.data.dropWhile isSpaceChar).reverse.dropWhile isSpaceChar).reverse)

/-! ## Association-list maps (Go map semantics) -/

/-- Lookup in a Go map modelled as an association list. -/
def mapFind {α β : Type} [DecidableEq α] : List (α × β) → α → Option β
  | [], _ => none
  | (a, b) :: rest, k => if a = k then some b else mapFind rest k

/-- Insertion/overwrite in a Go map modelled as an association list. -/
def mapInsert {α β : Type} [DecidableEq α] : List (α × β) → α → β → List (α × β)
  | [], k, v => [(k, v)]
  | (a, b) :: rest, k, v =>
    if a = k then (k, v) :: rest else (a, b) :: mapInsert rest k v

theorem mapFind_mapInsert_self {α β : Type} [DecidableEq α]
    (m : List (α × β)) (k : α) (v : β) :
    mapFind (mapInsert m k v) k = some v := by
  induction m with
  | nil => simp [mapInsert, mapFind]
  | cons hd tl ih =>
    obtain ⟨a, b⟩ := hd
    by_cases h : a = k <;> simp [mapInsert, mapFind, h, ih]

theorem mapFind_mapInsert_ne {α β : Type} [DecidableEq α]
    (m : List (α × β)) (k k' : α) (v : β) (h : k' ≠ k) :
    mapFind (mapInsert m k v) k' = mapFind m k' := by
  have hk : k ≠ k' := fun h' => h h'.symm
  induction m with
  | nil => simp [mapInsert, mapFind, hk]
  | cons hd tl ih =>
    obtain ⟨a, b⟩ := hd
    by_cases ha : a = k
    · subst ha
      simp [mapInsert, mapFind, hk]
    · by_cases ha' : a = k'
      · subst ha'
        simp [mapInsert, mapFind, ha, hk]
      · simp [mapInsert, mapFind, ha, ha', ih]

/-! ## Data model (internal/jira) -/

/-- One field change inside a history entry (jira.HistoryItem). -/
structure HistoryItem where
  Field : String
  ToString : String
  FromString : String
deriving DecidableEq

/-- One change event of an item (jira.HistoryEntry): a created timestamp
string and the list of field changes. -/
structure HistoryEntry where
  Created : String
  Items : List HistoryItem
deriving DecidableEq

/-- jira.Changelog: the ordered change history of one issue. -/
structure Changelog where
  Histories : List HistoryEntry
deriving DecidableEq

/-- jira.Sprint, the structured form of one sprint record. -/
structure Sprint where
  ID : Int := 0
  RapidViewID : Int := 0
  State : String := ""
  Name : String := ""
  StartDate : String := ""
  EndDate : String := ""
  CompleteDate : Option String := none
  ActivatedDate : String := ""
  Sequence : Int := 0
  Goal : String := ""
  Synced : Bool := false
  AutoStartStop : Bool := false
  IncompleteIssuesDestination : Option String := none
deriving DecidableEq

/-- A nested struct holding only a name (status, issuetype). -/
structure NameOnly where
  Name : String := ""
deriving DecidableEq

/-- A nested struct holding only a key (parent, project). -/
structure KeyOnly where
  Key : String := ""
deriving DecidableEq

/-- jira.Fields: the current field state of an issue. -/
structure Fields where
  Summary : String := ""
  Description : String := ""
  Created : String := ""
  Status : NameOnly := {}
  IssueType : NameOnly := {}
  Parent : KeyOnly := {}
  Project : KeyOnly := {}
  Sprints : List Sprint := []
deriving DecidableEq

/-- jira.JiraIssueWithSprints: an issue record from the cache. -/
structure JiraIssueWithSprints where
  Key : String := ""
  Fields : Fields := {}
deriving DecidableEq

/-- jira.ToChangelog: synthesize a single-entry changelog from the current
field state, one change item per current sprint membership timestamped at
the creation time.  Note the synthetic field name is the lowercase string
sprint, exactly as in the source.  The Go function also returns an error
value, but every return site passes a nil error, so the embedding is total. -/
def ToChangelog (issue : JiraIssueWithSprints) : Changelog :=
  { Histories := [{ Created := issue.Fields.Created,
                    Items := issue.Fields.Sprints.map
                      (fun sprint => { Field := "sprint", ToString := sprint.Name, FromString := "" }) }] }

/-! ## Timestamps

History timestamps are parsed with the single fixed Go layout
2006-01-02T15:04:05.000-0700 (date-time with millisecond fraction and a
numeric zone offset); no alternate formats are attempted.  Instants are
modelled as Int milliseconds since the Unix epoch. -/

/-- Numeric value of a decimal digit character, if it is one. -/
def digitVal (c : Char) : Option Nat :=
  if '0' ≤ c ∧ c ≤ '9' then some (c.toNat - 48) else none

/-- Value of a two-digit decimal field. -/
def twoDigits (a b : Char) : Option Nat := do
  let x ← digitVal a
  let y ← digitVal b
  pure (10 * x + y)

/-- Whether a year is a Gregorian leap year. -/
def isLeapYear (y : Int) : Bool :=
  y % 4 = 0 ∧ (y % 100 ≠ 0 ∨ y % 400 = 0)

/-- Number of days in a month of a given year. -/
def daysInMonth (y m : Int) : Int :=
  if m = 2 then (if isLeapYear y then 29 else 28)
  else if m = 4 ∨ m = 6 ∨ m = 9 ∨ m = 11 then 30
  else 31

/-- Days from 1970-01-01 to the given proleptic-Gregorian calendar date
(standard civil-from-days inverse pairing, Hinnant's algorithm). -/
def daysFromCivil (y m d : Int) : Int :=
  let y' := if m ≤ 2 then y - 1 else y
  let era := (if 0 ≤ y' then y' else y' - 399) / 400
  let yoe := y' - era * 400
  let mp := if 2 < m then m - 3 else m + 9
  let doy := (153 * mp + 2) / 5 + d - 1
  let doe := yoe * 365 + yoe / 4 - yoe / 100 + doy
  era * 146097 + doe - 719468

/-- Calendar date (year, month, day) of a day count from 1970-01-01. -/
def civilFromDays (z : Int) : Int × Int × Int :=
  let z' := z + 719468
  let era := (if 0 ≤ z' then z' else z' - 146096) / 146097
  let doe := z' - era * 146097
  let yoe := (doe - doe / 1460 + doe / 36524 - doe / 146096) / 365
  let y := yoe + era * 400
  let doy := doe - (365 * yoe + yoe / 4 - yoe / 100)
  let mp := (5 * doy + 2) / 153
  let d := doy - (153 * mp + 2) / 5 + 1
  let m := if mp < 10 then mp + 3 else mp - 9
  (if m ≤ 2 then y + 1 else y, m, d)

/-- Embedding of time.Parse with the fixed layout
2006-01-02T15:04:05.000-0700: the input must match the pattern exactly and
carry in-range field values; the result is the absolute instant in
milliseconds since the Unix epoch (the zone offset is subtracted out). -/
def parseTimestamp (s : String) : Option Int :=
  match s.data with
  | [y1, y2, y3, y4, '-', mo1, mo2, '-', d1, d2, 'T',
     h1, h2, ':', mi1, mi2, ':', s1, s2, '.', f1, f2, f3, zs, z1, z2, z3, z4] => do
    let ya ← digitVal y1
    let yb ← digitVal y2
    let yc ← twoDigits y3 y4
    let year : Int := (1000 * ya + 100 * yb + yc : Nat)
    let month ← twoDigits mo1 mo2
    let day ← twoDigits d1 d2
    let hour ← twoDigits h1 h2
    let minute ← twoDigits mi1 mi2
    let sec ← twoDigits s1 s2
    let fa ← digitVal f1
    let fb ← twoDigits f2 f3
    let millis := 100 * fa + fb
    let zh ← twoDigits z1 z2
    let zm ← twoDigits z3 z4
    if 1 ≤ month ∧ (month : Int) ≤ 12 ∧ 1 ≤ day ∧ (day : Int) ≤ daysInMonth year month ∧
        hour ≤ 23 ∧ minute ≤ 59 ∧ sec ≤ 59 ∧ zm ≤ 59 ∧ (zs = '+' ∨ zs = '-') then
      let utcMs : Int := daysFromCivil year month day * 86400000 +
        (hour : Int) * 3600000 + (minute : Int) * 60000 + (sec : Int) * 1000 + millis
      let offMs : Int := ((zh : Int) * 60 + zm) * 60000
      pure (if zs = '+' then utcMs - offMs else utcMs + offMs)
    else none
  | _ => none

/-- Character of a decimal digit value. -/
def digitChar (n : Int) : Char := Char.ofNat (48 + n.toNat % 10)

/-- Two-digit zero-padded decimal rendering. -/
def pad2 (n : Int) : String := String.mk [digitChar (n / 10), digitChar n]

/-- Four-digit zero-padded decimal rendering. -/
def pad4 (n : Int) : String :=
  String.mk [digitChar (n / 1000), digitChar (n / 100), digitChar (n / 10), digitChar n]

/-- The 2006-01-02 date rendering of an instant. -/
def formatDate (t : Int) : String :=
  let (y, m, d) := civilFromDays (t / 86400000)
  pad4 y ++ "-" ++ pad2 m ++ "-" ++ pad2 d

/-- Embedding of t.Format(timeFormatFor(d)): the bucket label for duration d
(86400000 ms daily, 3600000 ms hourly, 60000 ms minutely).  The default
branch of timeFormatFor (RFC3339, unreachable from process because d always
comes from parseInterval) is rendered in UTC. -/
def formatTime (d t : Int) : String :=
  let msOfDay := t % 86400000
  if d = 86400000 then formatDate t
  else if d = 3600000 then formatDate t ++ " " ++ pad2 (msOfDay / 3600000) ++ ":00"
  else if d = 60000 then
    formatDate t ++ " " ++ pad2 (msOfDay / 3600000) ++ ":" ++ pad2 (msOfDay % 3600000 / 60000)
  else
    formatDate t ++ "T" ++ pad2 (msOfDay / 3600000) ++ ":" ++ pad2 (msOfDay % 3600000 / 60000) ++
      ":" ++ pad2 (msOfDay % 60000 / 1000) ++ "Z"

/-! ## Tracker configuration (parseInterval, part_002 lines 43-54) -/

/-- parseInterval: maps the granularity selector to a step duration in
milliseconds (Go returns a time.Duration; 24h, 1h and 1min respectively),
or an error for anything else. -/
def parseInterval (interval : String) : Except String Int :=
  if interval = "daily" then .ok 86400000
  else if interval = "hourly" then .ok 3600000
  else if interval = "minutely" then .ok 60000
  else .error ("invalid interval: " ++ interval)

/-! ## Timeline replay state (process in part_002, lines 277-280) -/

/-- The (issue key, sprint name) pair keying windows and pair metadata. -/
structure SprintKey where
  IssueKey : String
  Sprint : String
deriving DecidableEq

/-- A membership window: half-open interval, ToTime unset while open. -/
structure WindowSpan where
  FromTime : Int
  ToTime : Option Int := none
deriving DecidableEq

/-- Pair metadata snapshotted when a pair first opens. -/
structure SprintMeta where
  Points : Rat := 0
  Status : String := ""
deriving DecidableEq

/-- The four run-wide mutable maps of process: sprintWindows, sprintMeta,
storyPoints and statuses. -/
structure RunState where
  sprintWindows : List (SprintKey × List WindowSpan) := []
  sprintMeta : List (SprintKey × SprintMeta) := []
  storyPoints : List (String × Rat) := []
  statuses : List (String × String) := []
deriving DecidableEq

/-- The close step of the origin loop: if the window list is nonempty and
its last window is still open, set that window's end to t. -/
def closeLastIfOpen (l : List WindowSpan) (t : Int) : Option (List WindowSpan) :=
  match l.getLast? with
  | some w => if w.ToTime = none then some (l.dropLast ++ [{ FromTime := w.FromTime, ToTime := some t }]) else none
  | none => none

/-- Embedding of strconv.ParseFloat for the plain decimal strings this data
carries: optional sign, digits, optional fractional part; anything else
fails.  The exponent and special forms of ParseFloat never occur here. -/
def parseDecimal (intPart fracPart : List Char) : Option Rat :=
  if intPart.all Char.isDigit ∧ fracPart.all Char.isDigit ∧ (intPart ≠ [] ∨ fracPart ≠ []) then
    let iv : Nat := intPart.foldl (fun acc c => 10 * acc + (c.toNat - 48)) 0
    let fv : Nat := fracPart.foldl (fun acc c => 10 * acc + (c.toNat - 48)) 0
    some ((iv : Rat) + (fv : Rat) / ((10 : Rat) ^ fracPart.length))
  else none

/-- strconv.ParseFloat(s, 64) on the decimal fragment. -/
def parseFloat (s : String) : Option Rat :=
  let chars := match s.data with
    | '+' :: rest => some (rest, (1 : Rat))
    | '-' :: rest => some (rest, (-1 : Rat))
    | rest => some (rest, (1 : Rat))
  match chars with
  | some (body, sign) =>
    match body.splitOn '.' with
    | [ip] => (parseDecimal ip []).map (sign * ·)
    | [ip, fp] => (parseDecimal ip fp).map (sign * ·)
    | _ => none
  | none => none

/-- The body of the origin-sprints loop of process (part_002 lines 363-373):
trim the name, skip empty names and names cut by the sprint filter, then
close the pair's most recent window if it is open. -/
def replaySprintFrom (sprintFilter issueKey : String) (t : Int) (st : RunState)
    (sprintRaw : String) : RunState :=
  let sprint := trimSpace sprintRaw
  if sprint = "" ∨ (sprintFilter ≠ "" ∧ sprint ≠ sprintFilter) then st
  else
    let k : SprintKey := { IssueKey := issueKey, Sprint := sprint }
    match closeLastIfOpen ((mapFind st.sprintWindows k).getD []) t with
    | some windows => { st with sprintWindows := mapInsert st.sprintWindows k windows }
    | none => st

/-- The body of the new-sprints loop of process (part_002 lines 375-388):
trim and filter the name, snapshot pair metadata from the running trackers
if the pair has none yet, and append a new open window starting at t. -/
def replaySprintTo (sprintFilter issueKey : String) (t : Int) (st : RunState)
    (sprintRaw : String) : RunState :=
  let sprint := trimSpace sprintRaw
  if sprint = "" ∨ (sprintFilter ≠ "" ∧ sprint ≠ sprintFilter) then st
  else
    let k : SprintKey := { IssueKey := issueKey, Sprint := sprint }
    let st1 :=
      match mapFind st.sprintMeta k with
      | some _ => st
      | none =>
        let snap : SprintMeta :=
          { Points := (mapFind st.storyPoints issueKey).getD 0,
            Status := (mapFind st.statuses issueKey).getD "" }
        { st with sprintMeta := mapInsert st.sprintMeta k snap }
    let opened : List WindowSpan :=
      ((mapFind st1.sprintWindows k).getD []) ++ [{ FromTime := t, ToTime := none }]
    { st1 with sprintWindows := mapInsert st1.sprintWindows k opened }

/-- One change item of a history entry (the switch of process, part_002
lines 353-399): Sprint changes drive the window maps, Story Points and
status changes update the per-issue running trackers. -/
def replayItem (sprintFilter issueKey : String) (t : Int) (st : RunState)
    (item : HistoryItem) : RunState :=
  if item.Field = "Sprint" then
    let originSprints := splitComma item.FromString
    let newSprints := splitComma item.ToString
    let st1 := originSprints.foldl (replaySprintFrom sprintFilter issueKey t) st
    newSprints.foldl (replaySprintTo sprintFilter issueKey t) st1
  else if item.Field = "Story Points" then
    if item.ToString ≠ "" then
      match parseFloat item.ToString with
      | some pts => { st with storyPoints := mapInsert st.storyPoints issueKey pts }
      | none => st
    else st
  else if item.Field = "status" then
    if item.ToString ≠ "" then
      { st with statuses := mapInsert st.statuses issueKey item.ToString }
    else st
  else st

/-- One history entry (part_002 lines 348-352): an entry whose Created
timestamp does not parse under the fixed layout is skipped whole; otherwise
its items are replayed in order at the parsed instant. -/
def replayEntry (sprintFilter issueKey : String) (st : RunState) (h : HistoryEntry) : RunState :=
  match parseTimestamp h.Created with
  | none => st
  | some t => h.Items.foldl (replayItem sprintFilter issueKey t) st

/-- Replay of a full resolved changelog for one issue key. -/
def replayHistories (sprintFilter issueKey : String) (hs : List HistoryEntry)
    (st : RunState) : RunState :=
  hs.foldl (replayEntry sprintFilter issueKey) st

/-! ## Changelog resolution and the per-issue walk body
(process in part_002, lines 282-403) -/

/-- Whether any history entry carries a change item of the Sprint field
(the foundSprintEvents scan of process; it inspects items only, not
timestamps). -/
def hasSprintEvents (c : Changelog) : Bool :=
  c.Histories.any (fun h => h.Items.any (fun item => item.Field = "Sprint"))

/-- The parent-fallback step of the resolution chain (part_002 lines
320-337): when the issue's own changelog has no Sprint changes and a parent
key is set, fetch the parent changelog (a missing one is the error that
aborts the walk) and switch to it when it has Sprint changes. -/
def parentStep (getChangelog : String → Option Changelog) (issue : JiraIssueWithSprints)
    (found : Bool) (changelog : Changelog) : Except Unit (Bool × Changelog) :=
  if ¬found ∧ issue.Fields.Parent.Key ≠ "" then
    match getChangelog issue.Fields.Parent.Key with
    | none => .error ()
    | some parentChangelog =>
      if hasSprintEvents parentChangelog then .ok (true, parentChangelog)
      else .ok (found, changelog)
  else .ok (found, changelog)

/-- The walk callback of process for one cached issue.  The cache accessor
getChangelog stands for jira.GetIssueChangelogFromCache; a missing
changelog is the error case that aborts the walk.  Resolution: keep the
issue's own changelog if it has Sprint changes; else apply the parent
fallback; else, if the issue currently lists sprint memberships,
synthesize a changelog with ToChangelog.  The resolved history is then
replayed under the issue's own key. -/
def processIssue (getChangelog : String → Option Changelog) (project sprintFilter : String)
    (issue : JiraIssueWithSprints) (st : RunState) : Except Unit RunState :=
  if project ≠ "" ∧ issue.Fields.Project.Key ≠ project then .ok st
  else
    match getChangelog issue.Key with
    | none => .error ()
    | some changelog =>
      match parentStep getChangelog issue (hasSprintEvents changelog) changelog with
      | .error e => .error e
      | .ok (found2, changelog2) =>
        .ok (replayHistories sprintFilter issue.Key
          (if ¬found2 ∧ issue.Fields.Sprints ≠ [] then ToChangelog issue else changelog2).Histories st)

/-- The filepath.Walk pass of process over the enumerated issues: the first
per-issue error aborts the scan (in Go it surfaces as log.Fatalf). -/
def scanIssues (getChangelog : String → Option Changelog) (project sprintFilter : String)
    (st : RunState) : List JiraIssueWithSprints → Except Unit RunState
  | [] => .ok st
  | issue :: rest =>
    match processIssue getChangelog project sprintFilter issue st with
    | .error e => .error e
    | .ok st1 => scanIssues getChangelog project sprintFilter st1 rest

/-! ## Aggregation (process in part_002, lines 417-462) -/

/-- An aggregate bucket key: formatted timestamp label and sprint name. -/
structure BucketKey where
  Timestamp : String
  Sprint : String
deriving DecidableEq

/-- The three aggregation maps of process: distinct-issue sets, deduped
point totals and the per-status histograms. -/
structure AggAcc where
  counts : List (BucketKey × List String) := []
  totalPoints : List (BucketKey × Rat) := []
  statusCounts : List (BucketKey × List (String × Nat)) := []
deriving DecidableEq

/-- Time rounded down to a multiple of the granularity (Time.Truncate; the
Go zero time differs from the Unix epoch by a whole number of days, so
daily, hourly and minutely boundaries coincide). -/
def truncate (t d : Int) : Int := t - t % d

/-- Number of iterations of the bucket cursor loop
for t := from.Truncate(d); !t.After(end); t = t.Add(d). -/
def numSteps (c0 endT d : Int) : Nat :=
  if c0 ≤ endT then ((endT - c0) / d).toNat + 1 else 0

/-- The cursor instants visited by the bucket loop of one window. -/
def cursorList (c0 endT d : Int) : List Int :=
  (List.range (numSteps c0 endT d)).map (fun i : Nat => c0 + d * (i : Int))

/-- The bucket labels one window contributes to: the loop cursor starts at
the window start truncated to the granularity and runs while it does not
exceed the window end (the reference time now for a still-open window). -/
def windowTimestamps (d now : Int) (w : WindowSpan) : List String :=
  (cursorList (truncate w.FromTime d) (w.ToTime.getD now) d).map (formatTime d)

/-- Membership insert into the distinct-issue set of a bucket. -/
def setInsert (l : List String) (x : String) : List String :=
  if x ∈ l then l else l ++ [x]

/-- statusCounts[kk][status]++ on the inner histogram map. -/
def bumpStatus (m : List (String × Nat)) (status : String) : List (String × Nat) :=
  mapInsert m status ((mapFind m status).getD 0 + 1)

/-- One iteration of the bucket loop (part_002 lines 434-449) at label ts:
record the issue in the bucket's distinct set, add the pair's snapshotted
points unless this pair already paid into this bucket (the seen set), and
bump the histogram under the snapshotted status unconditionally. -/
def aggStep (issueKey sprint : String) (meta : SprintMeta)
    (acc : AggAcc × List (BucketKey × Bool)) (ts : String) : AggAcc × List (BucketKey × Bool) :=
  let a := acc.1
  let seen := acc.2
  let kk : BucketKey := { Timestamp := ts, Sprint := sprint }
  let counts := mapInsert a.counts kk (setInsert ((mapFind a.counts kk).getD []) issueKey)
  let paid := (mapFind seen kk).getD false
  let totalPoints :=
    if paid then a.totalPoints
    else mapInsert a.totalPoints kk (((mapFind a.totalPoints kk).getD 0) + meta.Points)
  let seen1 := if paid then seen else mapInsert seen kk true
  let statusCounts :=
    mapInsert a.statusCounts kk (bumpStatus ((mapFind a.statusCounts kk).getD []) meta.Status)
  ({ counts := counts, totalPoints := totalPoints, statusCounts := statusCounts }, seen1)

/-- Aggregation of one window of a pair. -/
def aggWindow (issueKey sprint : String) (meta : SprintMeta) (d now : Int)
    (acc : AggAcc × List (BucketKey × Bool)) (w : WindowSpan) : AggAcc × List (BucketKey × Bool) :=
  (windowTimestamps d now w).foldl (aggStep issueKey sprint meta) acc

/-- Aggregation of all windows of one (issue, sprint) pair: the seen set is
fresh per pair, so the points dedupe is per pair per bucket. -/
def aggPair (d now : Int) (k : SprintKey) (meta : SprintMeta)
    (windows : List WindowSpan) (acc : AggAcc) : AggAcc :=
  (windows.foldl (aggWindow k.IssueKey k.Sprint meta d now) (acc, [])).1

/-- The full aggregation pass over the window map; a pair with no metadata
record reads the zero value of the Go map. -/
def aggregate (d now : Int) (st : RunState) : AggAcc :=
  st.sprintWindows.foldl
    (fun acc kw => aggPair d now kw.1 ((mapFind st.sprintMeta kw.1).getD ({} : SprintMeta)) kw.2 acc)
    ({} : AggAcc)

/-! ## Report ordering and rows (process in part_002, lines 453-492) -/

/-- The order sort.Slice establishes on bucket keys: timestamp label
ascending, ties broken by sprint name ascending. -/
def keyLe (a b : BucketKey) : Prop :=
  a.Timestamp < b.Timestamp ∨ (a.Timestamp = b.Timestamp ∧ a.Sprint ≤ b.Sprint)

instance : DecidableRel keyLe := fun a b => by
  unfold keyLe
  infer_instance

/-- The sorted key sequence of the report. -/
def sortKeys (l : List BucketKey) : List BucketKey := l.insertionSort keyLe

/-- The keys of the counts map in emission order. -/
def reportKeys (agg : AggAcc) : List BucketKey := sortKeys (agg.counts.map Prod.fst)

/-- The fixed status columns of the report. -/
def statusesToTrack : List String :=
  ["Backlog", "In Progress", "Review", "Testing", "Resolved", "Closed"]

/-- One data row of the report, before text serialization (CSV rendering is
out of scope): bucket label, sprint, distinct issue count, point total and
the zero-filled status columns. -/
structure ReportRow where
  Timestamp : String
  Sprint : String
  issueCount : Nat
  storyPoints : Rat
  statusCols : List Nat
deriving DecidableEq

/-- The row emitted for one bucket key. -/
def mkRow (agg : AggAcc) (kk : BucketKey) : ReportRow :=
  { Timestamp := kk.Timestamp,
    Sprint := kk.Sprint,
    issueCount := ((mapFind agg.counts kk).getD []).length,
    storyPoints := (mapFind agg.totalPoints kk).getD 0,
    statusCols := statusesToTrack.map
      (fun s => (mapFind ((mapFind agg.statusCounts kk).getD []) s).getD 0) }

/-- The process function of the sprint tracker (part_002 lines 270-494):
parse the granularity first and abort on failure before touching any item;
then scan all cached issues into the run state, aggregate the windows
against the wall-clock reference time now, and emit the sorted rows. -/
def process (issues : List JiraIssueWithSprints) (getChangelog : String → Option Changelog)
    (project _out sprintFilter intervalStr : String) (_debugLog : Bool) (now : Int) :
    Except String (List ReportRow) :=
  match parseInterval intervalStr with
  | .error e => .error e
  | .ok intervalDur =>
    match scanIssues getChangelog project sprintFilter {} issues with
    | .error _ => .error "error scanning files"
    | .ok st =>
      let agg := aggregate intervalDur now st
      .ok ((reportKeys agg).map (mkRow agg))

/-! ## ParseSprintString (internal/jira/sprint.go) -/

/-- Result of a Go function that can return a value, return an error, or
panic at runtime. -/
inductive GoResult (α : Type) where
  | ok : α → GoResult α
  | err : String → GoResult α
  | panicked : GoResult α
deriving DecidableEq

/-- strings.Index for a one-character needle (byte offsets and character
offsets coincide on the ASCII needles used here). -/
def firstIdxAux (c : Char) : List Char → Nat → Option Nat
  | [], _ => none
  | x :: xs, i => if x = c then some i else firstIdxAux c xs (i + 1)

/-- Index of the first occurrence of a character. -/
def firstIdx (c : Char) (l : List Char) : Option Nat := firstIdxAux c l 0

/-- strings.LastIndex for a one-character needle. -/
def lastIdxAux (c : Char) : List Char → Nat → Option Nat → Option Nat
  | [], _, best => best
  | x :: xs, i, best => lastIdxAux c xs (i + 1) (if x = c then some i else best)

/-- Index of the last occurrence of a character. -/
def lastIdx (c : Char) (l : List Char) : Option Nat := lastIdxAux c l 0 none

/-- strings.SplitN(s, sep, 2) for a one-character separator: the whole
string when the separator is absent, otherwise the parts before and after
its first occurrence. -/
def splitN2 (sep : Char) (s : String) : List String :=
  match firstIdx sep s.data with
  | none => [s]
  | some i => [String.mk (s.data.take i), String.mk (s.data.drop (i + 1))]

/-- strconv.Atoi with the error discarded, as the source does: the zero
value stands in for every malformed input. -/
def atoi (s : String) : Int :=
  let natVal : List Char → Int := fun l => (l.foldl (fun acc c => 10 * acc + (c.toNat - 48)) 0 : Nat)
  match s.data with
  | '+' :: rest => if rest ≠ [] ∧ rest.all Char.isDigit then natVal rest else 0
  | '-' :: rest => if rest ≠ [] ∧ rest.all Char.isDigit then -(natVal rest) else 0
  | rest => if rest ≠ [] ∧ rest.all Char.isDigit then natVal rest else 0

/-- One key=value part of a sprint string (the switch in ParseSprintString);
parts without an equals sign are skipped. -/
def applySprintPart (result : Sprint) (part : String) : Sprint :=
  match splitN2 '=' (trimSpace part) with
  | [key, vraw] =>
    let val := trimSpace vraw
    if key = "id" then { result with ID := atoi val }
    else if key = "rapidViewId" then { result with RapidViewID := atoi val }
    else if key = "state" then { result with State := val }
    else if key = "name" then { result with Name := val }
    else if key = "startDate" then { result with StartDate := val }
    else if key = "endDate" then { result with EndDate := val }
    else if key = "completeDate" then
      if val ≠ "<null>" then { result with CompleteDate := some val } else result
    else if key = "activatedDate" then { result with ActivatedDate := val }
    else if key = "sequence" then { result with Sequence := atoi val }
    else if key = "goal" then { result with Goal := val }
    else if key = "synced" then { result with Synced := val = "true" }
    else if key = "autoStartStop" then { result with AutoStartStop := val = "true" }
    else if key = "incompleteIssuesDestinationId" then
      if val ≠ "<null>" then { result with IncompleteIssuesDestination := some val } else result
    else result
  | _ => result

/-- jira.ParseSprintString: finds the first opening and the last closing
bracket, errors only when one of them is absent, then takes the slice
between them.  The Go slice expression s[start+1:end] panics when its lower
bound exceeds its upper bound, which the guard does not rule out; the
panicked result models that runtime panic. -/
def ParseSprintString (s : String) : GoResult Sprint :=
  match firstIdx '[' s.data, lastIdx ']' s.data with
  | none, _ => .err "invalid sprint string format"
  | some _, none => .err "invalid sprint string format"
  | some startI, some endI =>
    if startI + 1 ≤ endI ∧ endI ≤ s.data.length then
      let content := String.mk ((s.data.drop (startI + 1)).take (endI - (startI + 1)))
      let parts := splitComma content
      .ok (parts.foldl applySprintPart {})
    else .panicked

/-! ## Derived accessors (Go map reads with zero values) -/

/-- The distinct-issue set of a bucket (nil slice when absent). -/
def countsD (a : AggAcc) (kk : BucketKey) : List String := (mapFind a.counts kk).getD []

/-- The deduped point total of a bucket (zero when absent). -/
def tpD (a : AggAcc) (kk : BucketKey) : Rat := (mapFind a.totalPoints kk).getD 0

/-- The histogram count of one status in a bucket (zero when absent). -/
def scD (a : AggAcc) (kk : BucketKey) (status : String) : Nat :=
  (mapFind ((mapFind a.statusCounts kk).getD []) status).getD 0

/-- Whether a pair has already paid its points into a bucket. -/
def seenD (seen : List (BucketKey × Bool)) (kk : BucketKey) : Bool :=
  (mapFind seen kk).getD false

/-- All bucket labels of all windows of one pair, one occurrence per
covering window instance. -/
def pairBucketTimestamps (d now : Int) (windows : List WindowSpan) : List String :=
  (windows.map (windowTimestamps d now)).flatten

/-- How many window instances of a pair cover a given bucket. -/
def coveringInstances (d now : Int) (k : SprintKey) (windows : List WindowSpan)
    (kk : BucketKey) : Nat :=
  if kk.Sprint = k.Sprint then (pairBucketTimestamps d now windows).count kk.Timestamp else 0

/-! ## Concrete fixtures used by claim theorems and witnesses -/

/-- A history entry joining sprint A. -/
def entryOpenA : HistoryEntry := ⟨"2024-01-01T10:00:00.000+0000", [⟨"Sprint", "A", ""⟩]⟩

/-- A history entry listing sprint A in both the previous and the new value
list of its iteration change item. -/
def entryBothA : HistoryEntry := ⟨"2024-01-01T11:00:00.000+0000", [⟨"Sprint", "A", "A"⟩]⟩

/-- The pair key of issue X-1 in sprint A. -/
def keyXA : SprintKey := ⟨"X-1", "A"⟩

/-- The run state after replaying only the join entry. -/
def stAfterOpen : RunState := replayHistories "" "X-1" [entryOpenA] {}

/-- An issue with a current sprint membership whose history is empty
everywhere: the synthetic-changelog fixture. -/
def issueNoHistory : JiraIssueWithSprints :=
  { Key := "X-1",
    Fields := { Created := "2024-01-01T10:00:00.000+0000", Sprints := [{ Name := "Sprint 1" }] } }

/-- Cache accessor for the synthetic-changelog fixture: the issue's own
changelog exists but is empty. -/
def cacheNoHistory : String → Option Changelog :=
  fun k => if k = "X-1" then some ⟨[]⟩ else none

/-- A parent changelog carrying a Sprint change. -/
def parentChangelogB : Changelog :=
  ⟨[⟨"2024-01-01T10:00:00.000+0000", [⟨"Sprint", "B", ""⟩]⟩]⟩

/-- A child issue with no own Sprint history and a parent key. -/
def issueChild : JiraIssueWithSprints :=
  { Key := "X-2", Fields := { Parent := { Key := "P-1" } } }

/-- Cache accessor for the parent-fallback fixture. -/
def cacheChild : String → Option Changelog :=
  fun k => if k = "X-2" then some ⟨[]⟩ else if k = "P-1" then some parentChangelogB else none

/-- A run state in which pair (X-1, A) already carries snapshotted metadata
of 5 points in status Backlog, with one closed window. -/
def stMetaFixed : RunState :=
  { sprintWindows := [(keyXA, [⟨100, some 200⟩])],
    sprintMeta := [(keyXA, ⟨5, "Backlog"⟩)],
    storyPoints := [("X-1", 5)],
    statuses := [("X-1", "Backlog")] }

/-- An issue whose changelog moves the status tracker to In Progress and
then rejoins sprint A. -/
def issueRejoin : JiraIssueWithSprints := { Key := "X-1" }

/-- Cache accessor for the rejoin fixture. -/
def cacheRejoin : String → Option Changelog :=
  fun k =>
    if k = "X-1" then
      some ⟨[⟨"2024-01-01T10:00:00.000+0000", [⟨"status", "In Progress", ""⟩]⟩,
             ⟨"2024-01-01T11:00:00.000+0000", [⟨"Sprint", "A", ""⟩]⟩]⟩
    else none

/-- The run state after the rejoin fixture: the status tracker moved to In
Progress and a new open window was appended, but the pair metadata still
holds the old snapshot. -/
def stAfterRejoin : RunState :=
  { sprintWindows := [(keyXA, [⟨100, some 200⟩, ⟨1704106800000, none⟩])],
    sprintMeta := [(keyXA, ⟨5, "Backlog"⟩)],
    storyPoints := [("X-1", 5)],
    statuses := [("X-1", "In Progress")] }

/-- Two windows of the same pair inside the same day: 01:00-02:00 and
03:00-04:00 UTC on 2024-01-01. -/
def windowsSameDay : List WindowSpan :=
  [⟨1704070800000, some 1704074400000⟩, ⟨1704078000000, some 1704081600000⟩]

/-- Metadata fixture: 5 points, status Backlog. -/
def metaW : SprintMeta := ⟨5, "Backlog"⟩

/-- The daily bucket both windows of windowsSameDay cover. -/
def bucketJan1A : BucketKey := ⟨"2024-01-01", "A"⟩

/-- A window whose end falls exactly on the midnight boundary of
2024-01-02 UTC. -/
def windowToBoundary : WindowSpan := ⟨1704103200000, some 1704153600000⟩

/-! ## General lemmas -/

theorem foldl_preserve {α σ : Type} (P : σ → Prop) (f : σ → α → σ)
    (hstep : ∀ s a, P s → P (f s a)) :
    ∀ (l : List α) (s : σ), P s → P (l.foldl f s) := by
  intro l
  induction l with
  | nil => intro s hs; exact hs
  | cons a rest ih => intro s hs; exact ih (f s a) (hstep s a hs)

theorem replayEntry_unparsable (sprintFilter issueKey : String) (st : RunState)
    (h : HistoryEntry) (hnone : parseTimestamp h.Created = none) :
    replayEntry sprintFilter issueKey st h = st := by
  unfold replayEntry
  rw [hnone]

/-! ## Claim theorems -/

/-- C7: every history entry whose Created timestamp fails the single fixed
parse format is dropped individually by the replay, and the remaining
entries of the same changelog are processed exactly as if the unparsable
ones were absent; in particular no window, tracker update or metadata
snapshot comes from a dropped entry. -/
theorem c7_unparsable_timestamp_skipped (sprintFilter issueKey : String)
    (hs : List HistoryEntry) (st : RunState) :
    replayHistories sprintFilter issueKey hs st =
      replayHistories sprintFilter issueKey
        (hs.filter (fun h => (parseTimestamp h.Created).isSome)) st := by
  induction hs generalizing st with
  | nil => rfl
  | cons h rest ih =>
    by_cases hp : (parseTimestamp h.Created).isSome
    · have : (h :: rest).filter (fun h => (parseTimestamp h.Created).isSome) =
        h :: rest.filter (fun h => (parseTimestamp h.Created).isSome) := by
        simp [List.filter, hp]
      rw [this]
      show replayHistories sprintFilter issueKey rest (replayEntry sprintFilter issueKey st h) = _
      exact ih (replayEntry sprintFilter issueKey st h)
    · have hnone : parseTimestamp h.Created = none := Option.not_isSome_iff_eq_none.mp hp
      have hfil : (h :: rest).filter (fun h => (parseTimestamp h.Created).isSome) =
        rest.filter (fun h => (parseTimestamp h.Created).isSome) := by
        simp [List.filter, hp]
      rw [hfil]
      show replayHistories sprintFilter issueKey rest (replayEntry sprintFilter issueKey st h) = _
      rw [replayEntry_unparsable sprintFilter issueKey st h hnone]
      exact ih st

/-- C9: parseInterval accepts exactly daily, hourly and minutely with step
durations of 24 hours, 1 hour and 1 minute, every other selector yields the
invalid-interval error, and process then aborts on that error before any
item is read or processed. -/
theorem c9_interval_validation (s : String)
    (h1 : s ≠ "daily") (h2 : s ≠ "hourly") (h3 : s ≠ "minutely") :
    parseInterval "daily" = .ok 86400000 ∧
    parseInterval "hourly" = .ok 3600000 ∧
    parseInterval "minutely" = .ok 60000 ∧
    parseInterval s = .error ("invalid interval: " ++ s) ∧
    ∀ (issues : List JiraIssueWithSprints) (getChangelog : String → Option Changelog)
      (project out sprintFilter : String) (dbg : Bool) (now : Int),
      process issues getChangelog project out sprintFilter s dbg now =
        .error ("invalid interval: " ++ s) := by
  have herr : parseInterval s = .error ("invalid interval: " ++ s) := by
    unfold parseInterval
    simp [h1, h2, h3]
  refine ⟨rfl, rfl, rfl, herr, ?_⟩
  intro issues getChangelog project out sprintFilter dbg now
  unfold process
  rw [herr]

theorem c9_interval_validation_witness :
    ("weekly" ≠ "daily" ∧ "weekly" ≠ "hourly" ∧ "weekly" ≠ "minutely") ∧
    parseInterval "weekly" = .error ("invalid interval: " ++ "weekly") ∧
    process [] (fun _ => none) "" "" "" "weekly" false 0 =
      .error ("invalid interval: " ++ "weekly") :=
  ⟨⟨by decide, by decide, by decide⟩,
   (c9_interval_validation "weekly" (by decide) (by decide) (by decide)).2.2.2.1,
   (c9_interval_validation "weekly" (by decide) (by decide) (by decide)).2.2.2.2
     [] (fun _ => none) "" "" "" false 0⟩

/-- C10: ParseSprintString panics instead of returning an error whenever
the first opening bracket sits after the last closing bracket: the guard
only checks that both characters are present, not their order, so the Go
slice expression s[start+1:end] runs with its lower bound above its upper
bound. -/
theorem c10_parse_sprint_string_panics (s : String) (i j : Nat)
    (hi : firstIdx '[' s.data = some i) (hj : lastIdx ']' s.data = some j)
    (hij : j < i + 1) :
    ParseSprintString s = GoResult.panicked := by
  unfold ParseSprintString
  rw [hi, hj]
  have : ¬(i + 1 ≤ j) := by omega
  simp [this]

theorem c10_parse_sprint_string_panics_witness :
    (firstIdx '[' (String.data "][") = some 1 ∧ lastIdx ']' (String.data "][") = some 0 ∧
      0 < 1 + 1) ∧
    ParseSprintString "][" = GoResult.panicked :=
  ⟨⟨by decide, by decide, by decide⟩,
   c10_parse_sprint_string_panics "][" 1 0 (by decide) (by decide) (by decide)⟩

/-- C2 (code bug): for an item whose resolved history search finds no
iteration-field changes anywhere but whose current field state lists a
membership, the synthetic single-entry changelog is built at the creation
time as claimed, and its creation timestamp parses, yet the run produces
NO window at all: ToChangelog labels the synthetic change item with the
lowercase field name sprint while the replay only matches the field name
Sprint, so the whole synthetic path is dead and the claimed
one-window-per-membership outcome never happens. -/
theorem c2_synthetic_changelog_case_mismatch :
    hasSprintEvents ⟨[]⟩ = false ∧
    (ToChangelog issueNoHistory).Histories =
      [⟨"2024-01-01T10:00:00.000+0000", [⟨"sprint", "Sprint 1", ""⟩]⟩] ∧
    (parseTimestamp "2024-01-01T10:00:00.000+0000").isSome = true ∧
    processIssue cacheNoHistory "" "" issueNoHistory {} = .ok ({} : RunState) ∧
    mapFind (({} : RunState)).sprintWindows ⟨"X-1", "Sprint 1"⟩ = none := by
  refine ⟨rfl, rfl, by decide, by rfl, rfl⟩

/-- C1 (counterexample): a history entry whose iteration change item lists
sprint A in both the previous and the new value list does change the
windows of pair (X-1, A): the open window from the earlier join is closed
at the entry timestamp and a new window is opened at the same timestamp,
so the claimed no-op does not hold. -/
theorem c1_same_name_counterexample :
    mapFind stAfterOpen.sprintWindows keyXA = some [⟨1704103200000, none⟩] ∧
    mapFind (replayHistories "" "X-1" [entryBothA] stAfterOpen).sprintWindows keyXA =
      some [⟨1704103200000, some 1704106800000⟩, ⟨1704106800000, none⟩] ∧
    mapFind (replayHistories "" "X-1" [entryBothA] stAfterOpen).sprintWindows keyXA ≠
      mapFind stAfterOpen.sprintWindows keyXA := by
  refine ⟨by rfl, by rfl, by decide⟩

/-- C1 (amended): a name present in both the previous and the new value
list of the same entry is not a window no-op; replaying that change item
closes the pair's most recently opened window if it is still open (setting
its end to the entry timestamp) and always appends a fresh open window
starting at the entry timestamp. -/
theorem c1_same_name_close_reopen (issueKey x : String) (t : Int) (st : RunState)
    (hsplit : splitComma x = [x]) (htrim : trimSpace x = x) (hne : x ≠ "") :
    mapFind (replayItem "" issueKey t st ⟨"Sprint", x, x⟩).sprintWindows ⟨issueKey, x⟩ =
      some (((closeLastIfOpen ((mapFind st.sprintWindows ⟨issueKey, x⟩).getD []) t).getD
               ((mapFind st.sprintWindows ⟨issueKey, x⟩).getD [])) ++ [⟨t, none⟩]) := by
  unfold replayItem
  simp only [hsplit]
  show mapFind ([x].foldl (replaySprintTo "" issueKey t)
      ([x].foldl (replaySprintFrom "" issueKey t) st)).sprintWindows ⟨issueKey, x⟩ = _
  simp only [List.foldl]
  unfold replaySprintFrom replaySprintTo
  rw [htrim]
  have hguard : ¬(x = "" ∨ ("" ≠ "" ∧ x ≠ "")) := by simp [hne]
  simp only [if_neg hguard]
  cases hc : closeLastIfOpen ((mapFind st.sprintWindows ⟨issueKey, x⟩).getD []) t with
  | none =>
    cases hm : mapFind st.sprintMeta ⟨issueKey, x⟩ with
    | some m => simp [mapFind_mapInsert_self, hm]
    | none => simp [mapFind_mapInsert_self, hm]
  | some closed =>
    cases hm : mapFind st.sprintMeta ⟨issueKey, x⟩ with
    | some m => simp [mapFind_mapInsert_self, hm]
    | none => simp [mapFind_mapInsert_self, hm]

theorem c1_same_name_close_reopen_witness :
    (splitComma "A" = ["A"] ∧ trimSpace "A" = "A" ∧ "A" ≠ "") ∧
    mapFind (replayItem "" "X-1" 99 stAfterOpen ⟨"Sprint", "A", "A"⟩).sprintWindows
        ⟨"X-1", "A"⟩ =
      some (((closeLastIfOpen ((mapFind stAfterOpen.sprintWindows ⟨"X-1", "A"⟩).getD []) 99).getD
               ((mapFind stAfterOpen.sprintWindows ⟨"X-1", "A"⟩).getD [])) ++ [⟨99, none⟩]) :=
  ⟨⟨by decide, by decide, by decide⟩,
   c1_same_name_close_reopen "X-1" "A" 99 stAfterOpen (by decide) (by decide) (by decide)⟩

/-- C6: for an item whose own changelog has no iteration-field change item
but whose parent exists and whose parent changelog does have one, the
parent's entire changelog becomes the resolved history, replayed under the
child's own issue key. -/
theorem c6_parent_fallback (getChangelog : String → Option Changelog)
    (project sprintFilter : String) (issue : JiraIssueWithSprints)
    (own parentChangelog : Changelog) (st : RunState)
    (hproj : ¬(project ≠ "" ∧ issue.Fields.Project.Key ≠ project))
    (hown : getChangelog issue.Key = some own)
    (hnosprint : hasSprintEvents own = false)
    (hparent : issue.Fields.Parent.Key ≠ "")
    (hpc : getChangelog issue.Fields.Parent.Key = some parentChangelog)
    (hhas : hasSprintEvents parentChangelog = true) :
    processIssue getChangelog project sprintFilter issue st =
      .ok (replayHistories sprintFilter issue.Key parentChangelog.Histories st) := by
  unfold processIssue
  rw [if_neg hproj, hown]
  dsimp only
  rw [hnosprint]
  rw [show parentStep getChangelog issue false own = .ok (true, parentChangelog) from by
    unfold parentStep
    simp [hparent, hpc, hhas]]
  simp

theorem c6_parent_fallback_witness :
    (¬(("" : String) ≠ "" ∧ issueChild.Fields.Project.Key ≠ "") ∧
      cacheChild issueChild.Key = some ⟨[]⟩ ∧
      hasSprintEvents ⟨[]⟩ = false ∧
      issueChild.Fields.Parent.Key ≠ "" ∧
      cacheChild issueChild.Fields.Parent.Key = some parentChangelogB ∧
      hasSprintEvents parentChangelogB = true) ∧
    processIssue cacheChild "" "" issueChild {} =
      .ok (replayHistories "" issueChild.Key parentChangelogB.Histories ({} : RunState)) :=
  ⟨⟨by decide, by decide, by decide, by decide, by decide, by decide⟩,
   c6_parent_fallback cacheChild "" "" issueChild ⟨[]⟩ parentChangelogB {}
     (by decide) (by decide) (by decide) (by decide) (by decide) (by decide)⟩

/-! ## Pair-metadata preservation (for C3) -/

theorem sprintMeta_replaySprintFrom (f i : String) (t : Int) (st : RunState) (s : String) :
    (replaySprintFrom f i t st s).sprintMeta = st.sprintMeta := by
  simp only [replaySprintFrom]
  split
  · rfl
  · split <;> rfl

theorem sprintMeta_replaySprintTo (f i : String) (t : Int) (st : RunState) (s : String)
    (k : SprintKey) (v : SprintMeta) (h : mapFind st.sprintMeta k = some v) :
    mapFind (replaySprintTo f i t st s).sprintMeta k = some v := by
  simp only [replaySprintTo]
  split
  · exact h
  · cases hm : mapFind st.sprintMeta ⟨i, trimSpace s⟩ with
    | some m => simpa [hm] using h
    | none =>
      have hne : k ≠ (⟨i, trimSpace s⟩ : SprintKey) := by
        intro he
        rw [he] at h
        rw [hm] at h
        exact Option.noConfusion h
      simpa [hm, mapFind_mapInsert_ne _ _ _ _ hne] using h

theorem sprintMeta_replayItem (f i : String) (t : Int) (st : RunState) (item : HistoryItem)
    (k : SprintKey) (v : SprintMeta) (h : mapFind st.sprintMeta k = some v) :
    mapFind (replayItem f i t st item).sprintMeta k = some v := by
  simp only [replayItem]
  split
  · exact foldl_preserve (fun st => mapFind st.sprintMeta k = some v)
      (replaySprintTo f i t) (fun s a hs => sprintMeta_replaySprintTo f i t s a k v hs)
      (splitComma item.ToString) _
      (foldl_preserve (fun st => mapFind st.sprintMeta k = some v)
        (replaySprintFrom f i t)
        (fun s a hs => by
          show mapFind (replaySprintFrom f i t s a).sprintMeta k = some v
          rw [sprintMeta_replaySprintFrom]
          exact hs)
        (splitComma item.FromString) st h)
  · split
    · split
      · split
        · exact h
        · exact h
      · exact h
    · split
      · split <;> exact h
      · exact h

theorem sprintMeta_replayEntry (f i : String) (st : RunState) (e : HistoryEntry)
    (k : SprintKey) (v : SprintMeta) (h : mapFind st.sprintMeta k = some v) :
    mapFind (replayEntry f i st e).sprintMeta k = some v := by
  simp only [replayEntry]
  split
  · exact h
  · rename_i t heq
    exact foldl_preserve (fun st => mapFind st.sprintMeta k = some v)
      (replayItem f i t) (fun s a hs => sprintMeta_replayItem f i t s a k v hs)
      e.Items st h

theorem sprintMeta_replayHistories (f i : String) (hs : List HistoryEntry) (st : RunState)
    (k : SprintKey) (v : SprintMeta) (h : mapFind st.sprintMeta k = some v) :
    mapFind (replayHistories f i hs st).sprintMeta k = some v := by
  simp only [replayHistories]
  exact foldl_preserve (fun st => mapFind st.sprintMeta k = some v)
    (replayEntry f i) (fun s a hs' => sprintMeta_replayEntry f i s a k v hs') hs st h

theorem sprintMeta_processIssue (getChangelog : String → Option Changelog)
    (project sprintFilter : String) (issue : JiraIssueWithSprints) (st st' : RunState)
    (k : SprintKey) (v : SprintMeta) (h : mapFind st.sprintMeta k = some v)
    (hok : processIssue getChangelog project sprintFilter issue st = .ok st') :
    mapFind st'.sprintMeta k = some v := by
  unfold processIssue at hok
  split at hok
  · cases hok
    exact h
  · split at hok
    · exact Except.noConfusion hok
    · split at hok
      · exact Except.noConfusion hok
      · cases hok
        exact sprintMeta_replayHistories _ _ _ _ k v h

/-- C3: once pair metadata has been snapshotted for an (item, iteration)
pair, no amount of further processing in the run changes it: every later
entry of any item, including rejoins of the same pair after a leave and
later estimate or status changes, leaves the stored snapshot untouched
(the new-sprint loop only writes sprintMeta for a key that has no entry
yet, and nothing else ever writes it). -/
theorem c3_pair_metadata_immutable (getChangelog : String → Option Changelog)
    (project sprintFilter : String) (issues : List JiraIssueWithSprints)
    (st st' : RunState) (k : SprintKey) (v : SprintMeta)
    (h : mapFind st.sprintMeta k = some v)
    (hok : scanIssues getChangelog project sprintFilter st issues = .ok st') :
    mapFind st'.sprintMeta k = some v := by
  induction issues generalizing st with
  | nil =>
    unfold scanIssues at hok
    cases hok
    exact h
  | cons issue rest ih =>
    unfold scanIssues at hok
    split at hok
    · exact Except.noConfusion hok
    · rename_i st1 heq
      exact ih st1 (sprintMeta_processIssue getChangelog project sprintFilter issue st st1 k v h heq) hok

theorem c3_pair_metadata_immutable_witness :
    (mapFind stMetaFixed.sprintMeta keyXA = some ⟨5, "Backlog"⟩ ∧
      scanIssues cacheRejoin "" "" stMetaFixed [issueRejoin] = .ok stAfterRejoin) ∧
    mapFind stAfterRejoin.sprintMeta keyXA = some ⟨5, "Backlog"⟩ :=
  ⟨⟨by decide, by rfl⟩,
   c3_pair_metadata_immutable cacheRejoin "" "" [issueRejoin] stMetaFixed stAfterRejoin
     keyXA ⟨5, "Backlog"⟩ (by decide) (by rfl)⟩

/-! ## Report ordering (for C8) -/

instance : IsTotal BucketKey keyLe :=
  ⟨fun a b => by
    unfold keyLe
    rcases lt_trichotomy a.Timestamp b.Timestamp with h | h | h
    · exact Or.inl (Or.inl h)
    · rcases le_total a.Sprint b.Sprint with hs | hs
      · exact Or.inl (Or.inr ⟨h, hs⟩)
      · exact Or.inr (Or.inr ⟨h.symm, hs⟩)
    · exact Or.inr (Or.inl h)⟩

instance : IsTrans BucketKey keyLe :=
  ⟨fun a b c hab hbc => by
    unfold keyLe at *
    rcases hab with h1 | ⟨h1, h1'⟩
    · rcases hbc with h2 | ⟨h2, _⟩
      · exact Or.inl (h1.trans h2)
      · exact Or.inl (h2 ▸ h1)
    · rcases hbc with h2 | ⟨h2, h2'⟩
      · exact Or.inl (h1 ▸ h2)
      · exact Or.inr ⟨h1.trans h2, h1'.trans h2'⟩⟩

/-- C8: the aggregated output sequence is totally ordered as emitted: every
adjacent pair of report keys satisfies the comparator of the final sort,
namely the first key's timestamp label is strictly below the second's, or
the labels are equal and the sprint names are in nondecreasing lexical
order. -/
theorem c8_output_sorted (agg : AggAcc) :
    List.Chain'
      (fun a b : BucketKey =>
        a.Timestamp < b.Timestamp ∨ (a.Timestamp = b.Timestamp ∧ a.Sprint ≤ b.Sprint))
      (reportKeys agg) := by
  have h : (reportKeys agg).Sorted keyLe := List.sorted_insertionSort keyLe _
  exact h.chain'

/-! ## Aggregation step and fold lemmas (for C4 and C5) -/

theorem bucketKey_eq_mk (kk : BucketKey) (ts sp : String) :
    kk = (⟨ts, sp⟩ : BucketKey) ↔ (kk.Timestamp = ts ∧ kk.Sprint = sp) := by
  cases kk
  simp [BucketKey.mk.injEq]

theorem mem_setInsert (l : List String) (x y : String) :
    y ∈ setInsert l x ↔ (y ∈ l ∨ y = x) := by
  unfold setInsert
  by_cases h : x ∈ l
  · simp only [if_pos h]
    constructor
    · exact Or.inl
    · rintro (hy | rfl)
      · exact hy
      · exact h
  · simp [if_neg h]

theorem seenD_aggStep (i sp : String) (m : SprintMeta) (a : AggAcc)
    (seen : List (BucketKey × Bool)) (ts : String) (kk : BucketKey) :
    seenD (aggStep i sp m (a, seen) ts).2 kk = true ↔
      (seenD seen kk = true ∨ kk = (⟨ts, sp⟩ : BucketKey)) := by
  simp only [aggStep]
  by_cases hkk : kk = (⟨ts, sp⟩ : BucketKey)
  · subst hkk
    by_cases hp : seenD seen (⟨ts, sp⟩ : BucketKey) = true
    · simp only [seenD] at hp
      simp [seenD, hp]
    · simp only [seenD] at hp
      simp only [seenD, hp, if_neg, Bool.false_eq_true, if_false]
      simp [mapFind_mapInsert_self]
  · by_cases hp : seenD seen (⟨ts, sp⟩ : BucketKey) = true
    · simp only [seenD] at hp
      simp [seenD, hp, hkk]
    · simp only [seenD] at hp
      simp only [seenD, hp, Bool.false_eq_true, if_false]
      simp [mapFind_mapInsert_ne _ _ _ _ hkk, hkk, seenD]

theorem seenD_aggStep_false (i sp : String) (m : SprintMeta) (a : AggAcc)
    (seen : List (BucketKey × Bool)) (ts : String) (kk : BucketKey) :
    seenD (aggStep i sp m (a, seen) ts).2 kk = false ↔
      (seenD seen kk = false ∧ ¬kk = (⟨ts, sp⟩ : BucketKey)) := by
  have h := seenD_aggStep i sp m a seen ts kk
  constructor
  · intro hf
    have : ¬(seenD seen kk = true ∨ kk = (⟨ts, sp⟩ : BucketKey)) := by
      rw [← h]
      simp [hf]
    push_neg at this
    exact ⟨by simpa using this.1, this.2⟩
  · rintro ⟨h1, h2⟩
    have : ¬seenD (aggStep i sp m (a, seen) ts).2 kk = true := by
      rw [h]
      rintro (ht | he)
      · rw [h1] at ht
        exact Bool.noConfusion ht
      · exact h2 he
    simpa using this

theorem tpD_aggStep (i sp : String) (m : SprintMeta) (a : AggAcc)
    (seen : List (BucketKey × Bool)) (ts : String) (kk : BucketKey) :
    tpD (aggStep i sp m (a, seen) ts).1 kk =
      tpD a kk +
        (if kk = (⟨ts, sp⟩ : BucketKey) ∧ seenD seen kk = false then m.Points else 0) := by
  simp only [aggStep]
  by_cases hkk : kk = (⟨ts, sp⟩ : BucketKey)
  · subst hkk
    by_cases hp : seenD seen (⟨ts, sp⟩ : BucketKey) = true
    · simp only [seenD] at hp
      simp [tpD, seenD, hp]
    · simp only [seenD] at hp
      simp only [seenD, hp, Bool.false_eq_true, if_false]
      simp [tpD, mapFind_mapInsert_self, hp]
  · by_cases hp : seenD seen (⟨ts, sp⟩ : BucketKey) = true
    · simp only [seenD] at hp
      simp [tpD, hp, hkk]
    · simp only [seenD] at hp
      simp only [seenD, hp, Bool.false_eq_true, if_false]
      simp [tpD, mapFind_mapInsert_ne _ _ _ _ hkk, hkk]

theorem scD_aggStep (i sp : String) (m : SprintMeta) (a : AggAcc)
    (seen : List (BucketKey × Bool)) (ts : String) (kk : BucketKey) :
    scD (aggStep i sp m (a, seen) ts).1 kk m.Status =
      scD a kk m.Status + (if kk = (⟨ts, sp⟩ : BucketKey) then 1 else 0) := by
  simp only [aggStep]
  by_cases hkk : kk = (⟨ts, sp⟩ : BucketKey)
  · subst hkk
    simp [scD, mapFind_mapInsert_self, bumpStatus]
  · simp [scD, mapFind_mapInsert_ne _ _ _ _ hkk, hkk]

theorem countsD_aggStep (i sp : String) (m : SprintMeta) (a : AggAcc)
    (seen : List (BucketKey × Bool)) (ts : String) (kk : BucketKey) (x : String) :
    x ∈ countsD (aggStep i sp m (a, seen) ts).1 kk ↔
      (x ∈ countsD a kk ∨ (kk = (⟨ts, sp⟩ : BucketKey) ∧ x = i)) := by
  simp only [aggStep]
  by_cases hkk : kk = (⟨ts, sp⟩ : BucketKey)
  · subst hkk
    simp [countsD, mapFind_mapInsert_self, mem_setInsert]
  · simp [countsD, mapFind_mapInsert_ne _ _ _ _ hkk, hkk]

theorem seenD_aggFold (i sp : String) (m : SprintMeta) :
    ∀ (L : List String) (a : AggAcc) (seen : List (BucketKey × Bool)) (kk : BucketKey),
      seenD (L.foldl (aggStep i sp m) (a, seen)).2 kk = true ↔
        (seenD seen kk = true ∨ (kk.Sprint = sp ∧ kk.Timestamp ∈ L)) := by
  intro L
  induction L with
  | nil => intro a seen kk; simp
  | cons ts rest ih =>
    intro a seen kk
    rw [List.foldl_cons]
    rw [show aggStep i sp m (a, seen) ts =
        ((aggStep i sp m (a, seen) ts).1, (aggStep i sp m (a, seen) ts).2) from rfl]
    rw [ih, seenD_aggStep, bucketKey_eq_mk]
    simp only [List.mem_cons]
    tauto

theorem tpD_aggFold (i sp : String) (m : SprintMeta) :
    ∀ (L : List String) (a : AggAcc) (seen : List (BucketKey × Bool)) (kk : BucketKey),
      tpD (L.foldl (aggStep i sp m) (a, seen)).1 kk =
        tpD a kk +
          (if kk.Sprint = sp ∧ kk.Timestamp ∈ L ∧ seenD seen kk = false then m.Points else 0) := by
  intro L
  induction L with
  | nil => intro a seen kk; simp
  | cons ts rest ih =>
    intro a seen kk
    rw [List.foldl_cons]
    rw [show aggStep i sp m (a, seen) ts =
        ((aggStep i sp m (a, seen) ts).1, (aggStep i sp m (a, seen) ts).2) from rfl]
    rw [ih, tpD_aggStep]
    simp only [seenD_aggStep_false, List.mem_cons]
    by_cases h1 : kk = (⟨ts, sp⟩ : BucketKey) <;>
      by_cases h2 : seenD seen kk = false <;>
      by_cases h3 : kk.Timestamp ∈ rest <;>
      by_cases h4 : kk.Sprint = sp <;>
      simp_all [bucketKey_eq_mk] <;>
      ring

theorem scD_aggFold (i sp : String) (m : SprintMeta) :
    ∀ (L : List String) (a : AggAcc) (seen : List (BucketKey × Bool)) (kk : BucketKey),
      scD (L.foldl (aggStep i sp m) (a, seen)).1 kk m.Status =
        scD a kk m.Status + (if kk.Sprint = sp then L.count kk.Timestamp else 0) := by
  intro L
  induction L with
  | nil => intro a seen kk; simp
  | cons ts rest ih =>
    intro a seen kk
    rw [List.foldl_cons]
    rw [show aggStep i sp m (a, seen) ts =
        ((aggStep i sp m (a, seen) ts).1, (aggStep i sp m (a, seen) ts).2) from rfl]
    rw [ih, scD_aggStep]
    by_cases h1 : kk = (⟨ts, sp⟩ : BucketKey) <;>
      by_cases h4 : kk.Sprint = sp <;>
      simp_all [bucketKey_eq_mk, List.count_cons] <;>
      omega

theorem countsD_aggFold (i sp : String) (m : SprintMeta) :
    ∀ (L : List String) (a : AggAcc) (seen : List (BucketKey × Bool)) (kk : BucketKey) (x : String),
      x ∈ countsD (L.foldl (aggStep i sp m) (a, seen)).1 kk ↔
        (x ∈ countsD a kk ∨ (x = i ∧ kk.Sprint = sp ∧ kk.Timestamp ∈ L)) := by
  intro L
  induction L with
  | nil => intro a seen kk x; simp
  | cons ts rest ih =>
    intro a seen kk x
    rw [List.foldl_cons]
    rw [show aggStep i sp m (a, seen) ts =
        ((aggStep i sp m (a, seen) ts).1, (aggStep i sp m (a, seen) ts).2) from rfl]
    rw [ih, countsD_aggStep, bucketKey_eq_mk]
    simp only [List.mem_cons]
    tauto

theorem foldl_aggWindow_eq (i sp : String) (m : SprintMeta) (d now : Int) :
    ∀ (ws : List WindowSpan) (p : AggAcc × List (BucketKey × Bool)),
      ws.foldl (aggWindow i sp m d now) p =
        ((ws.map (windowTimestamps d now)).flatten).foldl (aggStep i sp m) p := by
  intro ws
  induction ws with
  | nil => intro p; rfl
  | cons w rest ih =>
    intro p
    rw [List.foldl_cons, ih, List.map_cons, List.flatten_cons, List.foldl_append]
    rfl

theorem aggPair_eq_fold (d now : Int) (k : SprintKey) (meta : SprintMeta)
    (windows : List WindowSpan) (acc : AggAcc) :
    aggPair d now k meta windows acc =
      ((pairBucketTimestamps d now windows).foldl (aggStep k.IssueKey k.Sprint meta)
        (acc, [])).1 := by
  unfold aggPair pairBucketTimestamps
  rw [foldl_aggWindow_eq]

/-- C4: for a pair whose windows cover a bucket two or more times, one
aggregation pass adds the pair's snapshotted estimate to that bucket's
total exactly once (the per-pair seen set dedupes it), while the bucket's
status histogram under the snapshotted status is incremented once per
covering window instance, hence two or more times. -/
theorem c4_aggregation_dedupe (d now : Int) (k : SprintKey) (meta : SprintMeta)
    (windows : List WindowSpan) (acc : AggAcc) (kk : BucketKey)
    (h2 : 2 ≤ coveringInstances d now k windows kk) :
    tpD (aggPair d now k meta windows acc) kk = tpD acc kk + meta.Points ∧
    scD (aggPair d now k meta windows acc) kk meta.Status =
      scD acc kk meta.Status + coveringInstances d now k windows kk := by
  have hsp : kk.Sprint = k.Sprint := by
    by_contra h
    rw [coveringInstances, if_neg h] at h2
    omega
  have hcnt : 2 ≤ (pairBucketTimestamps d now windows).count kk.Timestamp := by
    rw [coveringInstances, if_pos hsp] at h2
    exact h2
  have hmem : kk.Timestamp ∈ pairBucketTimestamps d now windows :=
    List.count_pos_iff.mp (by omega)
  rw [aggPair_eq_fold]
  constructor
  · rw [tpD_aggFold]
    have hcond : kk.Sprint = k.Sprint ∧ kk.Timestamp ∈ pairBucketTimestamps d now windows ∧
        seenD [] kk = false := ⟨hsp, hmem, rfl⟩
    rw [if_pos hcond]
  · rw [scD_aggFold, coveringInstances, if_pos hsp]

theorem c4_aggregation_dedupe_witness :
    2 ≤ coveringInstances 86400000 0 ⟨"X-1", "A"⟩ windowsSameDay bucketJan1A ∧
    (tpD (aggPair 86400000 0 ⟨"X-1", "A"⟩ metaW windowsSameDay {}) bucketJan1A =
        tpD ({} : AggAcc) bucketJan1A + metaW.Points ∧
      scD (aggPair 86400000 0 ⟨"X-1", "A"⟩ metaW windowsSameDay {}) bucketJan1A metaW.Status =
        scD ({} : AggAcc) bucketJan1A metaW.Status +
          coveringInstances 86400000 0 ⟨"X-1", "A"⟩ windowsSameDay bucketJan1A) :=
  ⟨by decide,
   c4_aggregation_dedupe 86400000 0 ⟨"X-1", "A"⟩ metaW windowsSameDay {} bucketJan1A (by decide)⟩

/-! ## Cursor-loop lemmas (for C5) -/

theorem truncate_eq_mul (t d : Int) : truncate t d = d * (t / d) := by
  unfold truncate
  have h := Int.ediv_add_emod t d
  linarith

theorem truncate_emod (t d : Int) : truncate t d % d = 0 := by
  rw [truncate_eq_mul]
  exact Int.mul_emod_right d _

theorem truncate_le (t d : Int) (hd : 0 < d) : truncate t d ≤ t := by
  unfold truncate
  have h := Int.emod_nonneg t (ne_of_gt hd)
  omega

theorem lt_truncate_add (t d : Int) (hd : 0 < d) : t < truncate t d + d := by
  unfold truncate
  have h := Int.emod_lt_of_pos t hd
  omega

theorem mem_cursorList (c0 endT d : Int) (hd : 0 < d) (i : Nat) :
    ((c0 + d * i) ∈ cursorList c0 endT d) ↔ c0 + d * i ≤ endT := by
  unfold cursorList numSteps
  by_cases hc : c0 ≤ endT
  · have hq : 0 ≤ (endT - c0) / d := Int.ediv_nonneg (by omega) (le_of_lt hd)
    rw [if_pos hc]
    constructor
    · intro hmem
      obtain ⟨j, hj, hval⟩ := List.mem_map.mp hmem
      have hjlt : j < ((endT - c0) / d).toNat + 1 := List.mem_range.mp hj
      have hji : (j : Int) = (i : Int) := by
        have hdj : d * (j : Int) = d * (i : Int) := by linarith
        exact mul_left_cancel₀ (ne_of_gt hd) hdj
      have hjq : (j : Int) ≤ (endT - c0) / d := by
        rw [← Int.toNat_of_nonneg hq]
        exact_mod_cast Nat.lt_succ_iff.mp hjlt
      have hmul : (j : Int) * d ≤ endT - c0 := (Int.le_ediv_iff_mul_le hd).mp hjq
      have hfin : d * (i : Int) ≤ endT - c0 := by
        rw [← hji]
        linarith [mul_comm (j : Int) d]
      linarith
    · intro hle
      apply List.mem_map.mpr
      refine ⟨i, List.mem_range.mpr ?_, rfl⟩
      have h1 : (i : Int) * d ≤ endT - c0 := by
        have hcm := mul_comm d (i : Int)
        linarith
      have h2 : (i : Int) ≤ (endT - c0) / d := (Int.le_ediv_iff_mul_le hd).mpr h1
      have h3 : i ≤ ((endT - c0) / d).toNat := by
        rw [← Int.toNat_of_nonneg hq] at h2
        exact_mod_cast h2
      omega
  · rw [if_neg hc]
    simp only [List.range_zero, List.map_nil, List.not_mem_nil, false_iff]
    intro hle
    have hdi : (0 : Int) ≤ d * i := by positivity
    omega

theorem head_cursorList (c0 endT d : Int) (hc : c0 ≤ endT) :
    (cursorList c0 endT d).head? = some c0 := by
  unfold cursorList numSteps
  rw [if_pos hc, List.range_succ_eq_map]
  simp

/-- C5: for every window, the bucket cursor starts at the window's start
truncated down to the nearest granularity boundary (a multiple of the
granularity, at most the start, less than one step below it), the cursor
list contains exactly the boundaries that do not exceed the window's end
(the window's own end if set, else the reference time), a window whose set
end falls exactly on a granularity boundary still yields that boundary
bucket, and aggregation records the issue in the bucket of every cursor
instant. -/
theorem c5_bucket_boundaries (d now : Int) (hd : 0 < d) (issueKey sprint : String)
    (meta : SprintMeta) (w : WindowSpan) (acc : AggAcc) (seen : List (BucketKey × Bool)) :
    (truncate w.FromTime d % d = 0 ∧ truncate w.FromTime d ≤ w.FromTime ∧
      w.FromTime < truncate w.FromTime d + d) ∧
    (truncate w.FromTime d ≤ w.ToTime.getD now →
      (cursorList (truncate w.FromTime d) (w.ToTime.getD now) d).head? =
        some (truncate w.FromTime d)) ∧
    (∀ i : Nat,
      ((truncate w.FromTime d + d * i) ∈
          cursorList (truncate w.FromTime d) (w.ToTime.getD now) d) ↔
        truncate w.FromTime d + d * i ≤ w.ToTime.getD now) ∧
    (∀ b : Int, w.ToTime = some b → b % d = 0 → w.FromTime ≤ b →
      b ∈ cursorList (truncate w.FromTime d) (w.ToTime.getD now) d) ∧
    (∀ t ∈ cursorList (truncate w.FromTime d) (w.ToTime.getD now) d,
      issueKey ∈ countsD (aggWindow issueKey sprint meta d now (acc, seen) w).1
        ⟨formatTime d t, sprint⟩) := by
  refine ⟨⟨truncate_emod w.FromTime d, truncate_le w.FromTime d hd,
    lt_truncate_add w.FromTime d hd⟩, ?_, ?_, ?_, ?_⟩
  · intro hc
    exact head_cursorList _ _ _ hc
  · intro i
    exact mem_cursorList _ _ _ hd i
  · intro b hb hbmod hfb
    have hc0 : truncate w.FromTime d ≤ b := le_trans (truncate_le w.FromTime d hd) hfb
    have hdvd : d ∣ (b - truncate w.FromTime d) := by
      apply Int.dvd_of_emod_eq_zero
      rw [Int.sub_emod, hbmod, truncate_emod]
      simp
    obtain ⟨q, hq⟩ := hdvd
    have hq0 : 0 ≤ q := by
      by_contra hneg
      push_neg at hneg
      have : d * q < 0 := mul_neg_of_pos_of_neg hd hneg
      omega
    have hbq : b = truncate w.FromTime d + d * (q.toNat : Int) := by
      rw [Int.toNat_of_nonneg hq0]
      omega
    have hend : w.ToTime.getD now = b := by rw [hb]; rfl
    rw [hend, hbq]
    exact (mem_cursorList _ _ _ hd q.toNat).mpr (by rw [← hbq])
  · intro t ht
    have hL : formatTime d t ∈ windowTimestamps d now w := by
      unfold windowTimestamps
      exact List.mem_map.mpr ⟨t, ht, rfl⟩
    have := (countsD_aggFold issueKey sprint meta (windowTimestamps d now w) acc seen
      ⟨formatTime d t, sprint⟩ issueKey).mpr (Or.inr ⟨rfl, rfl, hL⟩)
    exact this

theorem c5_bucket_boundaries_witness :
    ((0 : Int) < 86400000 ∧ windowToBoundary.ToTime = some 1704153600000 ∧
      (1704153600000 : Int) % 86400000 = 0 ∧ windowToBoundary.FromTime ≤ 1704153600000) ∧
    (1704153600000 : Int) ∈
      cursorList (truncate windowToBoundary.FromTime 86400000)
        (windowToBoundary.ToTime.getD 0) 86400000 ∧
    "X-1" ∈ countsD (aggWindow "X-1" "A" metaW 86400000 0 (({} : AggAcc), []) windowToBoundary).1
      ⟨formatTime 86400000 1704153600000, "A"⟩ :=
  ⟨⟨by decide, rfl, by decide, by decide⟩,
   (c5_bucket_boundaries 86400000 0 (by decide) "X-1" "A" metaW windowToBoundary {} []).2.2.2.1
     1704153600000 rfl (by decide) (by decide),
   (c5_bucket_boundaries 86400000 0 (by decide) "X-1" "A" metaW windowToBoundary {} []).2.2.2.2
     1704153600000
     ((c5_bucket_boundaries 86400000 0 (by decide) "X-1" "A" metaW windowToBoundary {} []).2.2.2.1
       1704153600000 rfl (by decide) (by decide))⟩

end RhoaiJira
